import Mathlib

/-!
# meraki-go: a shallow embedding of `main.go`

The package has three parts: passive records (configuration, ESSID, access point, the CMX
payload), two fetchers (`GetESSIDs`, `GetAPs`) that talk to the Meraki dashboard over HTTP, and
a JSON codec for the `Timestamp` field.

Everything the Go code obtains from outside the package (the HTTP client, `url.Parse`, the JSON
tokenizer, the time-zone database) is a field of `World`; the control flow, the string
handling, the struct tags and the slicing are transcribed from the source.  A run of a function
either returns or panics, and a run of a fetcher also records the requests it handed to the
HTTP client.
-/

namespace Meraki

/-! ## Go values -/

/-- Go strings and byte slices are byte sequences; a byte is given by its numeric value. -/
abbrev GoString := List Nat

/-- The bytes of an ASCII literal of the source. -/
def str (s : String) : GoString := s.toList.map Char.toNat

/-- A `float32` is carried as its bit pattern; the package only stores and copies floats. -/
abbrev GoFloat32 := Nat

/-- The run-time panics the package can raise. -/
inductive Panic where
  | nilDereference
  | indexOutOfRange
  | sliceBounds
  | explicit
deriving DecidableEq

/-- How the body of a Go function ends: it returns a value or a panic unwinds it. -/
inductive Outcome (α : Type) where
  | returned (v : α)
  | panicked (p : Panic)
deriving DecidableEq

/-- The slice expression `s[lo:hi]` on a string or byte slice: it panics unless
`lo ≤ hi ≤ len(s)`. -/
def slice (s : GoString) (lo hi : Nat) : Option GoString :=
  if lo ≤ hi ∧ hi ≤ s.length then some ((s.drop lo).take (hi - lo)) else none

/-! ## Records (main.go, lines 19-48) -/

/-- Config of main.go. -/
structure Config where
  MerakiAPI : GoString
  MerakiKey : GoString
  NetworkID : GoString
  MerakiCMXValidator : GoString
  MerakiCMXSecret : GoString
deriving DecidableEq

/-- ESSID of main.go (`int` is taken to be 64 bits wide). -/
structure ESSID where
  Number : Int
  Name : GoString
  Enabled : Bool
  AuthMode : GoString
deriving DecidableEq

/-- AP of main.go. -/
structure AP where
  Name : GoString
  Lat : GoFloat32
  Lng : GoFloat32
  Serial : GoString
  Mac : GoString
  Model : GoString
  Address : GoString
  LanIP : GoString
  Tags : GoString
  NetworkID : GoString
deriving DecidableEq

/-! ## HTTP -/

/-- An `*http.Request` as the fetchers build it: method, URL text, header lines in the order
they were added, and the body reader (`nil` is `none`). -/
structure Request where
  Method : GoString
  URL : GoString
  Header : List (GoString × GoString)
  Body : Option GoString
deriving DecidableEq

/-- What the fetchers read of an `*http.Response`: `resp.Request.URL.String()`, the status
code, and the result of `ioutil.ReadAll(resp.Body)` (the bytes read and whether the read ended
in an error). -/
structure Response where
  RequestURL : GoString
  StatusCode : Int
  Body : GoString
  ReadFailed : Bool
deriving DecidableEq

/-- JSON values as the decoder's scanner delivers them: a number keeps its literal text. -/
inductive JSON where
  | null
  | bool (b : Bool)
  | number (lit : GoString)
  | string (s : GoString)
  | array (xs : List JSON)
  | object (kvs : List (GoString × JSON))

/-- A time zone: its name and the offset east of UTC, in seconds, in force at a Unix time. -/
structure Location where
  name : GoString
  lookup : Int → Int

/-- What the package takes from its environment.
* `urlParses u`: `http.NewRequest` accepts the URL text `u` (it returns a nil request
  otherwise);
* `Do i req`: the pair `(resp, err)` that `client.Do(req)` returns on the `i`-th call of one
  fetch (`none` is `nil`);
* `jsonParse b`: the JSON value the text `b` denotes, `none` when `b` is not valid JSON;
* `parseFloat32 lit`: `strconv.ParseFloat(lit, 32)`;
* `LoadLocation name`: `time.LoadLocation(name)`, `none` when it fails. -/
structure World where
  urlParses : GoString → Bool
  Do : Nat → Request → Option Response × Option GoString
  jsonParse : GoString → Option JSON
  parseFloat32 : GoString → Option GoFloat32
  LoadLocation : GoString → Option Location

/-- The call `http.NewRequest(method, url, body)`: nil when the URL does not parse. -/
def NewRequest (w : World) (method url : GoString) (body : Option GoString) : Option Request :=
  if w.urlParses url then some ⟨method, url, [], body⟩ else none

/-- The call `req.Header.Add(key, value)`. -/
def Request.HeaderAdd (req : Request) (key value : GoString) : Request :=
  { req with Header := req.Header ++ [(key, value)] }

/-- A run of a fetcher: the requests handed to `client.Do`, in order, and how the call ended. -/
structure Run (α : Type) where
  sent : List Request
  result : Outcome α

/-! ## encoding/json: decoding into the package's structs -/

/-- The Go types of the fields the package decodes into. -/
inductive GoKind where
  | int
  | string
  | bool
  | float32
deriving DecidableEq

/-- A decoded scalar, ready to be stored in a field. -/
inductive GoValue where
  | int (n : Int)
  | string (s : GoString)
  | bool (b : Bool)
  | float32 (x : GoFloat32)
deriving DecidableEq

/-- One line of a struct declaration: the field, the name its `json` tag gives, its kind. -/
structure FieldDecl (F : Type) where
  field : F
  tagName : GoString
  kind : GoKind

/-- The dominant-field rule of `typeFields`: all fields here sit at depth zero and carry a
tag, so a JSON name is bound to a field only when no other field claims the same name; fields
that share a name are all dropped, without an error. -/
def typeFields {F : Type} (decl : List (FieldDecl F)) : List (FieldDecl F) :=
  decl.filter (fun f => (decl.filter (fun g => g.tagName == f.tagName)).length == 1)

/-- ASCII lower case of one byte. -/
def lowerByte (c : Nat) : Nat := if 65 ≤ c ∧ c ≤ 90 then c + 32 else c

/-- Case-insensitive comparison of an object key with a field name, over the ASCII letters
(the decoder also folds the Kelvin sign and the long s onto `k` and `s`; no claim below turns
on such a key). -/
def equalFold (a b : GoString) : Bool := a.map lowerByte == b.map lowerByte

/-- The field an object key selects: an exact match first, else the first match ignoring
case. -/
def findField {F : Type} (fields : List (FieldDecl F)) (key : GoString) : Option (FieldDecl F) :=
  match fields.find? (fun f => f.tagName == key) with
  | some f => some f
  | none => fields.find? (fun f => equalFold f.tagName key)

/-- Value of a run of decimal digits, `none` if a byte is not a digit. -/
def digitsValue : GoString → Nat → Option Nat
  | [], acc => some acc
  | c :: cs, acc => if 48 ≤ c ∧ c ≤ 57 then digitsValue cs (acc * 10 + (c - 48)) else none

/-- The call `strconv.ParseInt(lit, 10, 64)`: an optional sign, then digits only, within int64. -/
def parseInt64 (lit : GoString) : Option Int :=
  let (neg, ds) :=
    match lit with
    | 45 :: ds => (true, ds)
    | 43 :: ds => (false, ds)
    | ds => (false, ds)
  if ds.isEmpty then none
  else
    match digitsValue ds 0 with
    | none => none
    | some n =>
      let v : Int := if neg then -(n : Int) else (n : Int)
      if -(2 : Int) ^ 63 ≤ v ∧ v < (2 : Int) ^ 63 then some v else none

/-- What the decoder stores for a JSON value aimed at a field of a given kind; `none` leaves
the field as it is (a `null`, or a type mismatch, which the decoder records and skips). -/
def literalStore (w : World) : GoKind → JSON → Option GoValue
  | .int, .number lit => (parseInt64 lit).map GoValue.int
  | .float32, .number lit => (w.parseFloat32 lit).map GoValue.float32
  | .string, .string s => some (GoValue.string s)
  | .bool, .bool b => some (GoValue.bool b)
  | _, _ => none

/-- Decoding a JSON object into a struct: the members are visited in order, a member whose key
selects no field is skipped. -/
def decodeObject {F T : Type} (w : World) (fields : List (FieldDecl F))
    (set : F → GoValue → T → T) : List (GoString × JSON) → T → T
  | [], t => t
  | (key, v) :: rest, t =>
    match findField fields key with
    | none => decodeObject w fields set rest t
    | some f =>
      match literalStore w f.kind v with
      | none => decodeObject w fields set rest t
      | some gv => decodeObject w fields set rest (set f.field gv t)

/-- Decoding one array element into a fresh struct value: an object fills it in, anything
else leaves the zero value. -/
def decodeElement {F T : Type} (w : World) (fields : List (FieldDecl F))
    (set : F → GoValue → T → T) (zero : T) : JSON → T
  | .object kvs => decodeObject w fields set kvs zero
  | _ => zero

/-- The call `json.Unmarshal(body, &xs)` for `xs` an empty slice of structs; the returned error is
dropped by both callers.  Invalid JSON and a top-level value that is not an array leave the
slice empty. -/
def Unmarshal {F T : Type} (w : World) (fields : List (FieldDecl F))
    (set : F → GoValue → T → T) (zero : T) (body : GoString) : List T :=
  match w.jsonParse body with
  | some (.array xs) => xs.map (decodeElement w fields set zero)
  | _ => []

/-- The fields of ESSID. -/
inductive ESSIDField where
  | Number
  | Name
  | Enabled
  | AuthMode
deriving DecidableEq

/-- The struct tags of ESSID, main.go lines 30-33. -/
def ESSID.decl : List (FieldDecl ESSIDField) :=
  [ ⟨.Number, str "number", .int⟩,
    ⟨.Name, str "name", .string⟩,
    ⟨.Enabled, str "enabled", .bool⟩,
    ⟨.AuthMode, str "enabled", .string⟩ ]

/-- Storing a decoded value in a field of an ESSID. -/
def ESSID.set : ESSIDField → GoValue → ESSID → ESSID
  | .Number, .int n, e => { e with Number := n }
  | .Name, .string s, e => { e with Name := s }
  | .Enabled, .bool b, e => { e with Enabled := b }
  | .AuthMode, .string s, e => { e with AuthMode := s }
  | _, _, e => e

/-- The zero value of ESSID. -/
def ESSID.zero : ESSID := ⟨0, [], false, []⟩

/-- The fields of AP. -/
inductive APField where
  | Name
  | Lat
  | Lng
  | Serial
  | Mac
  | Model
  | Address
  | LanIP
  | Tags
  | NetworkID
deriving DecidableEq

/-- The struct tags of AP, main.go lines 38-47. -/
def AP.decl : List (FieldDecl APField) :=
  [ ⟨.Name, str "name", .string⟩,
    ⟨.Lat, str "lat", .float32⟩,
    ⟨.Lng, str "lng", .float32⟩,
    ⟨.Serial, str "serial", .string⟩,
    ⟨.Mac, str "mac", .string⟩,
    ⟨.Model, str "model", .string⟩,
    ⟨.Address, str "address", .string⟩,
    ⟨.LanIP, str "lanIp", .string⟩,
    ⟨.Tags, str "tags", .string⟩,
    ⟨.NetworkID, str "networkId", .string⟩ ]

/-- Storing a decoded value in a field of an AP. -/
def AP.set : APField → GoValue → AP → AP
  | .Name, .string s, a => { a with Name := s }
  | .Lat, .float32 x, a => { a with Lat := x }
  | .Lng, .float32 x, a => { a with Lng := x }
  | .Serial, .string s, a => { a with Serial := s }
  | .Mac, .string s, a => { a with Mac := s }
  | .Model, .string s, a => { a with Model := s }
  | .Address, .string s, a => { a with Address := s }
  | .LanIP, .string s, a => { a with LanIP := s }
  | .Tags, .string s, a => { a with Tags := s }
  | .NetworkID, .string s, a => { a with NetworkID := s }
  | _, _, a => a

/-- The zero value of AP. -/
def AP.zero : AP := ⟨[], 0, 0, [], [], [], [], [], [], []⟩

/-! ## The fetchers (main.go, lines 115-195) -/

/-- The header both fetchers add to every request. -/
def apiKeyHeader : GoString := str "X-Cisco-Meraki-API-Key"

/-- The call `json.Unmarshal(body, &essids)` of line 149, `essids` being empty. -/
def decodeESSIDs (w : World) (body : GoString) : List ESSID :=
  Unmarshal w (typeFields ESSID.decl) ESSID.set ESSID.zero body

/-- The call `json.Unmarshal(body, &aps)` of line 185, `aps` being empty. -/
def decodeAPs (w : World) (body : GoString) : List AP :=
  Unmarshal w (typeFields AP.decl) AP.set AP.zero body

/-- GetESSIDs of main.go.  `http.NewRequest` drops its error, so a URL that does not parse
leaves `req` nil and `req.Header.Add` panics. -/
def GetESSIDs (w : World) (config : Config) (APIKey networkID : GoString) : Run (List ESSID) :=
  let essids : List ESSID := []
  let url := config.MerakiAPI ++ str "/networks/" ++ networkID ++ str "/ssids"
  match NewRequest w (str "GET") url none with
  | none => ⟨[], .panicked .nilDereference⟩
  | some req =>
    let req := req.HeaderAdd apiKeyHeader APIKey
    match w.Do 0 req with
    | (_, some _) => ⟨[req], .returned essids⟩
    | (none, none) => ⟨[req], .panicked .nilDereference⟩
    | (some resp, none) =>
      let url := resp.RequestURL
      match NewRequest w (str "GET") url none with
      | none => ⟨[req], .panicked .nilDereference⟩
      | some req2 =>
        let req2 := req2.HeaderAdd apiKeyHeader APIKey
        match w.Do 1 req2 with
        | (_, some _) => ⟨[req, req2], .returned essids⟩
        | (none, none) => ⟨[req, req2], .panicked .nilDereference⟩
        | (some resp, none) =>
          let body := resp.Body
          if resp.StatusCode ≠ 200 then ⟨[req, req2], .returned essids⟩
          else
            ⟨[req, req2], .returned (decodeESSIDs w body)⟩

/-- The loop of GetAPs, lines 187-192: `ap.Model[0:2]` panics on a model shorter than two
bytes. -/
def filterMR : List AP → List AP → Outcome (List AP)
  | [], apsProcessed => .returned apsProcessed
  | ap :: rest, apsProcessed =>
    match slice ap.Model 0 2 with
    | none => .panicked .sliceBounds
    | some p =>
      if p = str "MR" then filterMR rest (apsProcessed ++ [ap])
      else filterMR rest apsProcessed

/-- GetAPs of main.go.  The first `err` is overwritten unread and `resp` is used before the
second `err` is looked at: `resp.Request` (line 165) and `resp.Body` (line 171) dereference a
nil response. -/
def GetAPs (w : World) (config : Config) (APIKey networkID : GoString) : Run (List AP) :=
  let aps : List AP := []
  let apsProcessed : List AP := []
  let url := config.MerakiAPI ++ str "/networks/" ++ networkID ++ str "/devices"
  match NewRequest w (str "GET") url none with
  | none => ⟨[], .panicked .nilDereference⟩
  | some req =>
    let req := req.HeaderAdd apiKeyHeader APIKey
    match w.Do 0 req with
    | (none, _) => ⟨[req], .panicked .nilDereference⟩
    | (some resp, _) =>
      let url := resp.RequestURL
      match NewRequest w (str "GET") url none with
      | none => ⟨[req], .panicked .nilDereference⟩
      | some req2 =>
        let req2 := req2.HeaderAdd apiKeyHeader APIKey
        match w.Do 1 req2 with
        | (none, _) => ⟨[req, req2], .panicked .nilDereference⟩
        | (some _, some _) => ⟨[req, req2], .returned aps⟩
        | (some resp, none) =>
          let body := resp.Body
          if resp.StatusCode ≠ 200 then ⟨[req, req2], .returned aps⟩
          else
            ⟨[req, req2], filterMR (decodeAPs w body) apsProcessed⟩

/-! ## package time: the calendar -/

/-- A `time.Time`: the instant, as seconds and nanoseconds since the Unix epoch, and the zone
it is shown in. -/
structure Time where
  sec : Int
  nsec : Nat
  loc : Location

/-- The zone `time.UTC`. -/
def UTC : Location := ⟨str "UTC", fun _ => 0⟩

/-- The zone `time.FixedZone(name, offset)`. -/
def FixedZone (name : GoString) (offset : Int) : Location := ⟨name, fun _ => offset⟩

/-- The zero `time.Time`, 1 January of year 1, 00:00:00 UTC. -/
def Time.zero : Time := ⟨-62135596800, 0, UTC⟩

/-- The test `t.Equal(u)`: the same instant, whatever the zones. -/
def Time.Equal (t u : Time) : Prop := t.sec = u.sec ∧ t.nsec = u.nsec

/-- The time `t.In(loc)`: the same instant shown in another zone. -/
def Time.In (t : Time) (loc : Location) : Time := { t with loc := loc }

/-- Leap years of the proleptic Gregorian calendar. -/
def isLeap (year : Int) : Bool := year % 4 = 0 ∧ (year % 100 ≠ 0 ∨ year % 400 = 0)

/-- Days of the year that precede the first day of a month (1 is January), leap day apart. -/
def daysBefore : Nat → Nat
  | 1 => 0
  | 2 => 31
  | 3 => 59
  | 4 => 90
  | 5 => 120
  | 6 => 151
  | 7 => 181
  | 8 => 212
  | 9 => 243
  | 10 => 273
  | 11 => 304
  | 12 => 334
  | _ => 365

/-- Number of days of a month of a year. -/
def daysIn (month : Nat) (year : Int) : Nat :=
  if month = 2 ∧ isLeap year then 29 else daysBefore (month + 1) - daysBefore month

/-- Days from 1 January 1970 to the given civil date. -/
def daysSinceEpoch (year : Int) (month day : Nat) : Int :=
  let y := year - 1
  365 * y + y / 4 - y / 100 + y / 400
    + (daysBefore month : Int) + (if isLeap year ∧ 3 ≤ month then 1 else 0)
    + ((day : Int) - 1) - 719162

/-- Unix seconds of `time.Date(year, month, day, hour, min, sec, 0, time.UTC)` for fields
within their ranges. -/
def unixDate (year : Int) (month day hour min sec : Nat) : Int :=
  daysSinceEpoch year month day * 86400 + (hour * 3600 + min * 60 + sec : Nat)

/-- The civil date (year, month, day) of a day count since 1 January 1970. -/
def civilFromDays (days : Int) : Int × Nat × Nat :=
  let z := days + 719468
  let era := z / 146097
  let doe := (z - era * 146097).toNat
  let yoe := (doe - doe / 1460 + doe / 36524 - doe / 146096) / 365
  let doy := doe - (365 * yoe + yoe / 4 - yoe / 100)
  let mp := (5 * doy + 2) / 153
  let d := doy - (153 * mp + 2) / 5 + 1
  let m := if mp < 10 then mp + 3 else mp - 9
  let y : Int := (yoe : Int) + era * 400 + (if m ≤ 2 then 1 else 0)
  (y, m, d)

/-! ## package time: `Parse` with the layout `time.RFC3339` -/

/-- ASCII digit test. -/
def isDigitByte (c : Nat) : Bool := 48 ≤ c ∧ c ≤ 57

/-- The helper `getnum` of format.go: one or two leading digits; with `fixed`, exactly two. -/
def getnum : GoString → Bool → Option (Nat × GoString)
  | [], _ => none
  | [c0], fixed =>
    if isDigitByte c0 then (if fixed then none else some (c0 - 48, [])) else none
  | c0 :: c1 :: rest, fixed =>
    if isDigitByte c0 then
      if isDigitByte c1 then some ((c0 - 48) * 10 + (c1 - 48), rest)
      else if fixed then none else some (c0 - 48, c1 :: rest)
    else none

/-- The helper `skip` of format.go for a one-byte literal of the layout. -/
def skipByte (c : Nat) : GoString → Option GoString
  | [] => none
  | v :: rest => if v = c then some rest else none

/-- The fractional second that may follow the seconds field: when the value goes on with a
period or comma and a digit, the whole run of digits is consumed and its first nine digits
give the nanoseconds. -/
def parseFraction (value : GoString) : Nat × GoString :=
  match value with
  | c :: d :: rest =>
    if (c = 46 ∨ c = 44) ∧ isDigitByte d then
      let ds := (d :: rest).takeWhile isDigitByte
      let kept := ds.take 9
      (((digitsValue kept 0).getD 0) * 10 ^ (9 - kept.length), (d :: rest).dropWhile isDigitByte)
    else (0, value)
  | _ => (0, value)

/-- The zone element `Z07:00` of the layout: the letter `Z`, or a sign, two digits, a colon
and two digits; the result is the offset east of UTC in seconds and the rest of the value. -/
def parseZone : GoString → Option (Option Int × GoString)
  | 90 :: rest => some (none, rest)
  | sign :: h0 :: h1 :: c :: m0 :: m1 :: rest =>
    if c ≠ 58 then none
    else
      match getnum [h0, h1] true with
      | none => none
      | some (hr, _) =>
        match getnum [m0, m1] true with
        | none => none
        | some (mm, _) =>
          if hr > 24 ∨ mm > 60 then none
          else
            let zoneOffset : Int := ((hr * 60 + mm) * 60 : Nat)
            if sign = 43 then some (some zoneOffset, rest)
            else if sign = 45 then some (some (-zoneOffset), rest)
            else none
  | _ => none

/-- The date elements `2006-01-02` of the layout: a year of exactly four digits, a two-digit
month within 1..12 and a two-digit day (checked against the month at the end of the parse). -/
def parseDateFields (value : GoString) : Option (Nat × Nat × Nat × GoString) :=
  match slice value 0 4 with
  | none => none
  | some p =>
    if isDigitByte (p.headD 0) = false then none
    else
      match digitsValue p 0 with
      | none => none
      | some year =>
        match skipByte 45 (value.drop 4) with
        | none => none
        | some value =>
          match getnum value true with
          | none => none
          | some (month, value) =>
            if month = 0 ∨ 12 < month then none
            else
              match skipByte 45 value with
              | none => none
              | some value =>
                match getnum value true with
                | none => none
                | some (day, value) => some (year, month, day, value)

/-- The clock elements `15:04:05` of the layout: an hour of one or two digits below 24, a
two-digit minute and a two-digit second, both below 60. -/
def parseClockFields (value : GoString) : Option (Nat × Nat × Nat × GoString) :=
  match getnum value false with
  | none => none
  | some (hour, value) =>
    if 24 ≤ hour then none
    else
      match skipByte 58 value with
      | none => none
      | some value =>
        match getnum value true with
        | none => none
        | some (min, value) =>
          if 60 ≤ min then none
          else
            match skipByte 58 value with
            | none => none
            | some value =>
              match getnum value true with
              | none => none
              | some (sec, value) =>
                if 60 ≤ sec then none else some (hour, min, sec, value)

/-- The call `time.Parse(time.RFC3339, value)`, the layout `2006-01-02T15:04:05Z07:00` taken element by
element as `parse` of format.go does: the date, the letter `T`, the clock, an optional
fractional second, the zone; then nothing may be left over and the day must exist in its
month.  `none` is a parse error.  A numeric offset gives a time in a fixed zone of that offset
(Go picks the local zone instead when its offset agrees; the instant is the same). -/
def timeParseRFC3339 (value : GoString) : Option Time :=
  match parseDateFields value with
  | none => none
  | some (year, month, day, value) =>
    match skipByte 84 value with
    | none => none
    | some value =>
      match parseClockFields value with
      | none => none
      | some (hour, min, sec, value) =>
        match parseZone (parseFraction value).2 with
        | none => none
        | some (z, rest) =>
          if rest ≠ [] then none
          else if day < 1 ∨ daysIn month year < day then none
          else
            let nsec := (parseFraction value).1
            let u := unixDate year month day hour min sec
            match z with
            | none => some ⟨u, nsec, UTC⟩
            | some off => some ⟨u - off, nsec, FixedZone [] off⟩

/-! ## package time: `Format` with the layout `tsLayout` -/

/-- The constant tsLayout of main.go, line 12. -/
def tsLayout : GoString := str "2006-01-02T15:04:05.000Z"

/-- The decimal digits of a number, most significant first, padded with zeros to a width. -/
def padDigits (n width : Nat) : GoString :=
  let ds := (Nat.toDigits 10 n).map Char.toNat
  List.replicate (width - ds.length) 48 ++ ds

/-- The helper `appendInt` of format.go: a minus sign for a negative number, then the digits
padded to the width. -/
def appendInt (x : Int) (width : Nat) : GoString :=
  if x < 0 then 45 :: padDigits x.natAbs width else padDigits x.natAbs width

/-- The text `t.Format(tsLayout)`.  The layout reads as year, month, day, `T`, hour, minute, second, a
fractional second of exactly three digits, and a literal `Z`: a layout names a zone element
only as `Z07:00`, `Z0700` or `Z07`, so the bare `Z` is copied to the output.  The fields are
those of the wall clock of the zone of `t`. -/
def Time.Format (t : Time) : GoString :=
  let abs := t.sec + t.loc.lookup t.sec
  let days := abs / 86400
  let rem := (abs % 86400).toNat
  let (year, month, day) := civilFromDays days
  appendInt year 4 ++ [45] ++ padDigits month 2 ++ [45] ++ padDigits day 2 ++ [84]
    ++ padDigits (rem / 3600) 2 ++ [58] ++ padDigits (rem % 3600 / 60) 2 ++ [58]
    ++ padDigits (rem % 60) 2 ++ [46] ++ padDigits (t.nsec / 1000000) 3 ++ [90]

/-! ## The timestamp codec (main.go, lines 89-113) -/

/-- Timestamp of main.go. -/
structure Timestamp where
  Time : Time

/-- The error value of a failed `time.Parse`. -/
inductive ParseError where
  | mk
deriving DecidableEq

/-- Timestamp.MarshalJSON of main.go: the bytes and the (always nil) error. -/
def Timestamp.MarshalJSON (w : World) (ct : Timestamp) :
    Outcome (GoString × Option ParseError) :=
  match w.LoadLocation (str "America/Mexico_City") with
  | none => .panicked .explicit
  | some loc =>
    let local_ := ct.Time.In loc
    .returned ([34] ++ local_.Format ++ [34], none)

/-- Lines 103-105 of main.go: a leading and a trailing quote are cut off together.  `b[0]`
panics on empty input and `b[1 : len(b)-1]` panics on a lone quote. -/
def stripQuotes (b : GoString) : Outcome GoString :=
  match b.head? with
  | none => .panicked .indexOutOfRange
  | some first =>
    if first = 34 ∧ b.getLast? = some 34 then
      match slice b 1 (b.length - 1) with
      | none => .panicked .sliceBounds
      | some inner => .returned inner
    else .returned b

/-- Timestamp.UnmarshalJSON of main.go: the receiver after the call and the returned error.
A failed first parse stores the zero time and the second parse, of the text of `tsLayout`,
overwrites both the time and the error. -/
def Timestamp.UnmarshalJSON (_ct : Timestamp) (b : GoString) :
    Outcome (Timestamp × Option ParseError) :=
  match stripQuotes b with
  | .panicked p => .panicked p
  | .returned b =>
    match timeParseRFC3339 b with
    | some t => .returned (⟨t⟩, none)
    | none =>
      match timeParseRFC3339 tsLayout with
      | some t => .returned (⟨t⟩, none)
      | none => .returned (⟨Time.zero⟩, some .mk)

/-! ## RFC 3339, section 5.6: the date-time the decoder is compared with -/

/-- A decimal digit of the grammar. -/
abbrev Digit := Fin 10

/-- The byte of a digit. -/
def Digit.byte (d : Digit) : Nat := 48 + d.val

/-- Value of a two-digit field. -/
def twoDigits (a b : Digit) : Nat := 10 * a.val + b.val

/-- The production `time-offset`: the letter Z, which the grammar also admits in lower case, or
a sign with hours and minutes. -/
inductive RFC3339Offset where
  | zulu (lower : Bool)
  | numoffset (negative : Bool) (h1 h0 m1 m0 : Digit)
deriving DecidableEq

/-- A derivation of the production `date-time`: four digits of year, two each of month, day,
hour, minute and second, the digits of `time-secfrac` (none when it is absent), the offset, and
whether the separator is written `t` instead of `T`. -/
structure RFC3339DateTime where
  y3 : Digit
  y2 : Digit
  y1 : Digit
  y0 : Digit
  mo1 : Digit
  mo0 : Digit
  d1 : Digit
  d0 : Digit
  lowerT : Bool
  h1 : Digit
  h0 : Digit
  mi1 : Digit
  mi0 : Digit
  s1 : Digit
  s0 : Digit
  secfrac : List Digit
  offset : RFC3339Offset

namespace RFC3339DateTime

/-- The year written. -/
def year (f : RFC3339DateTime) : Nat :=
  1000 * f.y3.val + 100 * f.y2.val + 10 * f.y1.val + f.y0.val

/-- The month written. -/
def month (f : RFC3339DateTime) : Nat := twoDigits f.mo1 f.mo0

/-- The day written. -/
def day (f : RFC3339DateTime) : Nat := twoDigits f.d1 f.d0

/-- The hour written. -/
def hour (f : RFC3339DateTime) : Nat := twoDigits f.h1 f.h0

/-- The minute written. -/
def minute (f : RFC3339DateTime) : Nat := twoDigits f.mi1 f.mi0

/-- The second written. -/
def second (f : RFC3339DateTime) : Nat := twoDigits f.s1 f.s0

/-- The restrictions of section 5.7 on an offset: hours 00-23, minutes 00-59. -/
def offsetOK : RFC3339Offset → Bool
  | .zulu _ => true
  | .numoffset _ h1 h0 m1 m0 => twoDigits h1 h0 ≤ 23 ∧ twoDigits m1 m0 ≤ 59

/-- The restrictions of section 5.7: month 01-12, a day that exists in the month, hour 00-23,
minute 00-59, second 00-60 (60 is a leap second), and the offset. -/
def wellFormed (f : RFC3339DateTime) : Bool :=
  1 ≤ f.month ∧ f.month ≤ 12 ∧ 1 ≤ f.day ∧ f.day ≤ daysIn f.month f.year ∧
    f.hour ≤ 23 ∧ f.minute ≤ 59 ∧ f.second ≤ 60 ∧ offsetOK f.offset

/-- The text of an offset. -/
def renderOffset : RFC3339Offset → GoString
  | .zulu lower => [if lower then 122 else 90]
  | .numoffset negative h1 h0 m1 m0 =>
    [if negative then 45 else 43, h1.byte, h0.byte, 58, m1.byte, m0.byte]

/-- The text of `time-secfrac`: a period and the digits, or nothing. -/
def renderSecfrac : List Digit → GoString
  | [] => []
  | ds => 46 :: ds.map Digit.byte

/-- The text of the date-time. -/
def render (f : RFC3339DateTime) : GoString :=
  [f.y3.byte, f.y2.byte, f.y1.byte, f.y0.byte, 45, f.mo1.byte, f.mo0.byte, 45,
    f.d1.byte, f.d0.byte, if f.lowerT then 116 else 84,
    f.h1.byte, f.h0.byte, 58, f.mi1.byte, f.mi0.byte, 58, f.s1.byte, f.s0.byte]
    ++ renderSecfrac f.secfrac ++ renderOffset f.offset

/-- Seconds the local time is ahead of UTC. -/
def offsetSeconds : RFC3339Offset → Int
  | .zulu _ => 0
  | .numoffset negative h1 h0 m1 m0 =>
    let s : Int := ((twoDigits h1 h0 * 60 + twoDigits m1 m0) * 60 : Nat)
    if negative then -s else s

/-- The instant denoted, in whole seconds since the Unix epoch: the local date and clock,
less the offset. -/
def unixSec (f : RFC3339DateTime) : Int :=
  unixDate f.year f.month f.day f.hour f.minute f.second - offsetSeconds f.offset

/-- The fraction of a second denoted, in nanoseconds; exact for up to nine digits. -/
def nanos (f : RFC3339DateTime) : Nat :=
  f.secfrac.foldl (fun acc d => 10 * acc + d.val) 0 * 10 ^ (9 - f.secfrac.length)

/-- The instant denoted, as a time in UTC. -/
def instant (f : RFC3339DateTime) : Time := ⟨f.unixSec, f.nanos, UTC⟩

end RFC3339DateTime

/-- A text is a well-formed RFC 3339 date-time when some well-formed derivation renders it. -/
def IsRFC3339 (s : GoString) : Prop :=
  ∃ f : RFC3339DateTime, f.wellFormed = true ∧ f.render = s

/-! ## Worked inputs -/

/-- The request either fetcher sends: a GET with the API key header and no body. -/
def apiRequest (url APIKey : GoString) : Request :=
  ⟨str "GET", url, [(apiKeyHeader, APIKey)], none⟩

/-- A world in which every URL parses, the two calls of the HTTP client end as given and the
JSON reader is given as a table. -/
def scriptedWorld (first second : Option Response × Option GoString)
    (json : GoString → Option JSON) : World :=
  { urlParses := fun _ => true
    Do := fun i _ => if i = 0 then first else second
    jsonParse := json
    parseFloat32 := fun _ => none
    LoadLocation := fun _ => none }

/-- A configuration whose key and network differ from the arguments passed along with it. -/
def sampleConfig : Config :=
  ⟨str "https://api.meraki.com/api/v0", str "key-of-config", str "N_config", [], []⟩

/-- The answer to a first request that was redirected to another shard. -/
def redirected (path : String) : Response :=
  ⟨str "https://n7.meraki.com/api/v0/networks/N_1/" ++ str path, 200, [], false⟩

/-- A device list with one access point, one switch and one security appliance. -/
def devicesBody : GoString :=
  str "[\x7b\"name\":\"lobby\",\"model\":\"MR33\"\x7d,\x7b\"model\":\"MS120\"\x7d,\x7b\"model\":\"MX64\"\x7d]"

/-- The JSON value of `devicesBody`. -/
def devicesJSON : JSON :=
  .array [ .object [(str "name", .string (str "lobby")), (str "model", .string (str "MR33"))],
           .object [(str "model", .string (str "MS120"))],
           .object [(str "model", .string (str "MX64"))] ]

/-- A device list whose second entry has a one-letter model. -/
def shortModelBody : GoString :=
  str "[\x7b\"model\":\"MR33\"\x7d,\x7b\"model\":\"M\"\x7d]"

/-- The JSON value of `shortModelBody`. -/
def shortModelJSON : JSON :=
  .array [ .object [(str "model", .string (str "MR33"))],
           .object [(str "model", .string (str "M"))] ]

/-- Two ESSID objects as the dashboard API lists them. -/
def essidsBody : GoString :=
  str ("[\x7b\"number\":0,\"name\":\"corp\",\"enabled\":true,\"authMode\":\"psk\"\x7d,"
    ++ "\x7b\"number\":1,\"name\":\"guest\",\"enabled\":true,\"authMode\":\"open\"\x7d]")

/-- The JSON value of `essidsBody`. -/
def essidsJSON : JSON :=
  .array [ .object [(str "number", .number (str "0")), (str "name", .string (str "corp")),
                    (str "enabled", .bool true), (str "authMode", .string (str "psk"))],
           .object [(str "number", .number (str "1")), (str "name", .string (str "guest")),
                    (str "enabled", .bool true), (str "authMode", .string (str "open"))] ]

/-- A JSON reader that knows one text. -/
def jsonTable (body : GoString) (v : JSON) : GoString → Option JSON :=
  fun b => if b = body then some v else none

/-- The URL of the first request of GetESSIDs. -/
def ssidsURL (config : Config) (networkID : GoString) : GoString :=
  config.MerakiAPI ++ str "/networks/" ++ networkID ++ str "/ssids"

/-- The URL of the first request of GetAPs. -/
def devicesURL (config : Config) (networkID : GoString) : GoString :=
  config.MerakiAPI ++ str "/networks/" ++ networkID ++ str "/devices"

/-- The derivation of `2020-01-01T00:00:00Z`. -/
def newYear2020 : RFC3339DateTime :=
  ⟨2, 0, 2, 0, 0, 1, 0, 1, false, 0, 0, 0, 0, 0, 0, [], .zulu false⟩

/-- The derivation of `1990-12-31T23:59:60Z`, the leap second RFC 3339 gives as an example
in its section 5.8. -/
def leapSecond1990 : RFC3339DateTime :=
  ⟨1, 9, 9, 0, 1, 2, 3, 1, false, 2, 3, 5, 9, 6, 0, [], .zulu false⟩

/-- The derivation of `1996-12-19T16:39:57.25-08:00`. -/
def pacific1996 : RFC3339DateTime :=
  ⟨1, 9, 9, 6, 1, 2, 1, 9, false, 1, 6, 3, 9, 5, 7, [2, 5], .numoffset true 0 8 0 0⟩

/-- A time-zone database in which America/Mexico_City is six hours behind UTC, as it is in
winter. -/
def zoneWorld : World :=
  { urlParses := fun _ => true
    Do := fun _ _ => (none, none)
    jsonParse := fun _ => none
    parseFloat32 := fun _ => none
    LoadLocation := fun name =>
      if name = str "America/Mexico_City" then some ⟨name, fun _ => -21600⟩ else none }

/-- The time the decoder falls back to: what `tsLayout`, read as a date-time, denotes. -/
def fallbackTime : Time := ⟨1136214245, 0, UTC⟩

/-! ## Lemmas on the fetchers -/

theorem slice_two (s : GoString) (h : 2 ≤ s.length) : slice s 0 2 = some (s.take 2) := by
  simp [slice, h]

theorem slice_short (s : GoString) (h : s.length < 2) : slice s 0 2 = none := by
  simp [slice]; omega

theorem take_two_eq_iff (s : GoString) : s.take 2 = str "MR" ↔ str "MR" <+: s := by
  rw [List.prefix_iff_eq_take]
  have : (str "MR").length = 2 := by decide
  rw [this]
  exact eq_comm

theorem filterMR_eq (l : List AP) : ∀ acc : List AP, (∀ ap ∈ l, 2 ≤ ap.Model.length) →
    filterMR l acc = .returned (acc ++ l.filter (fun ap => decide (str "MR" <+: ap.Model))) := by
  induction l with
  | nil => intro acc _; simp [filterMR]
  | cons ap rest ih =>
    intro acc h
    have hap : 2 ≤ ap.Model.length := h ap (List.mem_cons_self _ _)
    have hrest : ∀ a ∈ rest, 2 ≤ a.Model.length := fun a ha => h a (List.mem_cons_of_mem _ ha)
    rw [filterMR, slice_two _ hap]
    by_cases hp : ap.Model.take 2 = str "MR"
    · have hq : str "MR" <+: ap.Model := (take_two_eq_iff _).1 hp
      simp [hp, hq, ih _ hrest]
    · have hq : ¬ str "MR" <+: ap.Model := fun hq => hp ((take_two_eq_iff _).2 hq)
      simp [hp, hq, ih _ hrest]

theorem filterMR_short (l : List AP) : ∀ acc : List AP, (∃ ap ∈ l, ap.Model.length < 2) →
    filterMR l acc = .panicked .sliceBounds := by
  induction l with
  | nil => intro acc h; simp at h
  | cons ap rest ih =>
    intro acc h
    by_cases hap : ap.Model.length < 2
    · rw [filterMR, slice_short _ hap]
    · have hrest : ∃ a ∈ rest, a.Model.length < 2 := by
        obtain ⟨a, ha, hlen⟩ := h
        rcases List.mem_cons.1 ha with rfl | ha
        · exact absurd hlen hap
        · exact ⟨a, ha, hlen⟩
      rw [filterMR, slice_two _ (by omega)]
      split <;> simp [ih _ hrest]

theorem GetAPs_ok (w : World) (config : Config) (APIKey networkID : GoString) (r1 r2 : Response)
    (hurl : w.urlParses (devicesURL config networkID) = true)
    (h1 : w.Do 0 (apiRequest (devicesURL config networkID) APIKey) = (some r1, none))
    (hurl2 : w.urlParses r1.RequestURL = true)
    (h2 : w.Do 1 (apiRequest r1.RequestURL APIKey) = (some r2, none)) :
    GetAPs w config APIKey networkID =
      ⟨[apiRequest (devicesURL config networkID) APIKey, apiRequest r1.RequestURL APIKey],
        if r2.StatusCode ≠ 200 then .returned [] else filterMR (decodeAPs w r2.Body) []⟩ := by
  unfold devicesURL at hurl h1
  unfold apiRequest at h1 h2
  simp only [GetAPs, NewRequest, hurl, hurl2, Request.HeaderAdd, List.nil_append, if_true, h1, h2,
    apiRequest, devicesURL]
  split <;> rfl

theorem GetESSIDs_ok (w : World) (config : Config) (APIKey networkID : GoString)
    (r1 r2 : Response)
    (hurl : w.urlParses (ssidsURL config networkID) = true)
    (h1 : w.Do 0 (apiRequest (ssidsURL config networkID) APIKey) = (some r1, none))
    (hurl2 : w.urlParses r1.RequestURL = true)
    (h2 : w.Do 1 (apiRequest r1.RequestURL APIKey) = (some r2, none)) :
    GetESSIDs w config APIKey networkID =
      ⟨[apiRequest (ssidsURL config networkID) APIKey, apiRequest r1.RequestURL APIKey],
        if r2.StatusCode ≠ 200 then .returned [] else .returned (decodeESSIDs w r2.Body)⟩ := by
  unfold ssidsURL at hurl h1
  unfold apiRequest at h1 h2
  simp only [GetESSIDs, NewRequest, hurl, hurl2, Request.HeaderAdd, List.nil_append, if_true, h1,
    h2, apiRequest, ssidsURL]
  split <;> rfl

/-! ## The fetchers: claims -/

/-- C1. When both requests succeed, the second answer has status 200 and every decoded device
has a model of at least two bytes, GetAPs returns exactly the decoded entries whose Model
starts with `MR`, unchanged and in their original order. -/
theorem GetAPs_returns_MR_entries (w : World) (config : Config) (APIKey networkID : GoString)
    (r1 r2 : Response)
    (hurl : w.urlParses (devicesURL config networkID) = true)
    (h1 : w.Do 0 (apiRequest (devicesURL config networkID) APIKey) = (some r1, none))
    (hurl2 : w.urlParses r1.RequestURL = true)
    (h2 : w.Do 1 (apiRequest r1.RequestURL APIKey) = (some r2, none))
    (h200 : r2.StatusCode = 200)
    (hlen : ∀ ap ∈ decodeAPs w r2.Body, 2 ≤ ap.Model.length) :
    (GetAPs w config APIKey networkID).result =
      .returned ((decodeAPs w r2.Body).filter (fun ap => decide (str "MR" <+: ap.Model))) := by
  rw [GetAPs_ok w config APIKey networkID r1 r2 hurl h1 hurl2 h2]
  simp [h200, filterMR_eq _ [] hlen]

/-- C1, worked input: of the models MR33, MS120 and MX64 only the MR33 entry is returned. -/
theorem GetAPs_returns_MR_entries_witness :
    (GetAPs (scriptedWorld (some (redirected "devices"), none)
        (some ⟨[], 200, devicesBody, false⟩, none) (jsonTable devicesBody devicesJSON))
        sampleConfig (str "k") (str "N_1")).result =
      .returned [{ AP.zero with Name := str "lobby", Model := str "MR33" }] :=
  (GetAPs_returns_MR_entries
    (scriptedWorld (some (redirected "devices"), none)
      (some ⟨[], 200, devicesBody, false⟩, none) (jsonTable devicesBody devicesJSON))
    sampleConfig (str "k") (str "N_1") (redirected "devices") ⟨[], 200, devicesBody, false⟩
    rfl rfl rfl rfl rfl (by decide)).trans (by decide)

/-- C2. A decoded device list with an entry whose model is shorter than two bytes makes GetAPs
panic at `ap.Model[0:2]`; the entry is not skipped and nothing is returned. -/
theorem GetAPs_short_model_panics (w : World) (config : Config) (APIKey networkID : GoString)
    (r1 r2 : Response)
    (hurl : w.urlParses (devicesURL config networkID) = true)
    (h1 : w.Do 0 (apiRequest (devicesURL config networkID) APIKey) = (some r1, none))
    (hurl2 : w.urlParses r1.RequestURL = true)
    (h2 : w.Do 1 (apiRequest r1.RequestURL APIKey) = (some r2, none))
    (h200 : r2.StatusCode = 200)
    (hshort : ∃ ap ∈ decodeAPs w r2.Body, ap.Model.length < 2) :
    (GetAPs w config APIKey networkID).result = .panicked .sliceBounds := by
  rw [GetAPs_ok w config APIKey networkID r1 r2 hurl h1 hurl2 h2]
  simp [h200, filterMR_short _ [] hshort]

/-- C2, worked input: the device list `shortModelBody`, whose second model is `M`. -/
theorem GetAPs_short_model_panics_witness :
    (GetAPs (scriptedWorld (some (redirected "devices"), none)
        (some ⟨[], 200, shortModelBody, false⟩, none) (jsonTable shortModelBody shortModelJSON))
        sampleConfig (str "k") (str "N_1")).result = .panicked .sliceBounds :=
  GetAPs_short_model_panics
    (scriptedWorld (some (redirected "devices"), none)
      (some ⟨[], 200, shortModelBody, false⟩, none) (jsonTable shortModelBody shortModelJSON))
    sampleConfig (str "k") (str "N_1") (redirected "devices") ⟨[], 200, shortModelBody, false⟩
    rfl rfl rfl rfl rfl (by decide)

/-- C3. When the client returns an error and no response, GetAPs panics on the nil response:
on the first request at `resp.Request`, on the second at `resp.Body`; GetESSIDs, given the
same failure of its first request, returns the empty sequence. -/
theorem GetAPs_transport_failure_panics (w : World) (config : Config)
    (APIKey networkID : GoString) (e : GoString)
    (hurl : w.urlParses (devicesURL config networkID) = true) :
    (w.Do 0 (apiRequest (devicesURL config networkID) APIKey) = (none, some e) →
      (GetAPs w config APIKey networkID).result = .panicked .nilDereference) ∧
    (∀ r1, w.Do 0 (apiRequest (devicesURL config networkID) APIKey) = (some r1, none) →
      w.urlParses r1.RequestURL = true →
      w.Do 1 (apiRequest r1.RequestURL APIKey) = (none, some e) →
      (GetAPs w config APIKey networkID).result = .panicked .nilDereference) ∧
    (w.urlParses (ssidsURL config networkID) = true →
      w.Do 0 (apiRequest (ssidsURL config networkID) APIKey) = (none, some e) →
      (GetESSIDs w config APIKey networkID).result = .returned []) := by
  unfold devicesURL ssidsURL apiRequest at *
  refine ⟨?_, ?_, ?_⟩
  · intro h1
    simp only [GetAPs, NewRequest, hurl, Request.HeaderAdd, List.nil_append, if_true, h1]
  · intro r1 h1 hurl2 h2
    simp only [GetAPs, NewRequest, hurl, hurl2, Request.HeaderAdd, List.nil_append, if_true, h1,
      h2]
  · intro hurl3 h1
    simp only [GetESSIDs, NewRequest, hurl3, Request.HeaderAdd, List.nil_append, if_true, h1]

/-- C3, worked input: a connection that is refused on the first request. -/
theorem GetAPs_transport_failure_panics_witness :
    (GetAPs (scriptedWorld (none, some (str "connection refused")) (none, none) (fun _ => none))
        sampleConfig (str "k") (str "N_1")).result = .panicked .nilDereference ∧
    (GetAPs (scriptedWorld (some (redirected "devices"), none)
        (none, some (str "connection refused")) (fun _ => none))
        sampleConfig (str "k") (str "N_1")).result = .panicked .nilDereference ∧
    (GetESSIDs (scriptedWorld (none, some (str "connection refused")) (none, none)
        (fun _ => none)) sampleConfig (str "k") (str "N_1")).result = .returned [] :=
  ⟨(GetAPs_transport_failure_panics
      (scriptedWorld (none, some (str "connection refused")) (none, none) (fun _ => none))
      sampleConfig (str "k") (str "N_1") (str "connection refused") rfl).1 rfl,
    (GetAPs_transport_failure_panics
      (scriptedWorld (some (redirected "devices"), none)
        (none, some (str "connection refused")) (fun _ => none))
      sampleConfig (str "k") (str "N_1") (str "connection refused") rfl).2.1
      (redirected "devices") rfl rfl rfl,
    (GetAPs_transport_failure_panics
      (scriptedWorld (none, some (str "connection refused")) (none, none) (fun _ => none))
      sampleConfig (str "k") (str "N_1") (str "connection refused") rfl).2.2 rfl rfl⟩

/-- C4. When both requests succeed in transport and the status of the second answer is not
200, GetESSIDs and GetAPs return the empty sequence, whatever the body. -/
theorem non200_returns_empty (w : World) (config : Config) (APIKey networkID : GoString)
    (r1 r2 : Response) (hstatus : r2.StatusCode ≠ 200) :
    (w.urlParses (ssidsURL config networkID) = true →
      w.Do 0 (apiRequest (ssidsURL config networkID) APIKey) = (some r1, none) →
      w.urlParses r1.RequestURL = true →
      w.Do 1 (apiRequest r1.RequestURL APIKey) = (some r2, none) →
      (GetESSIDs w config APIKey networkID).result = .returned []) ∧
    (w.urlParses (devicesURL config networkID) = true →
      w.Do 0 (apiRequest (devicesURL config networkID) APIKey) = (some r1, none) →
      w.urlParses r1.RequestURL = true →
      w.Do 1 (apiRequest r1.RequestURL APIKey) = (some r2, none) →
      (GetAPs w config APIKey networkID).result = .returned []) := by
  constructor
  · intro hurl h1 hurl2 h2
    rw [GetESSIDs_ok w config APIKey networkID r1 r2 hurl h1 hurl2 h2]
    simp [hstatus]
  · intro hurl h1 hurl2 h2
    rw [GetAPs_ok w config APIKey networkID r1 r2 hurl h1 hurl2 h2]
    simp [hstatus]

/-- C4, worked input: status 500 with a body that is a valid array of entities. -/
theorem non200_returns_empty_witness :
    (GetESSIDs (scriptedWorld (some (redirected "ssids"), none)
        (some ⟨[], 500, essidsBody, false⟩, none) (jsonTable essidsBody essidsJSON))
        sampleConfig (str "k") (str "N_1")).result = .returned [] ∧
    (GetAPs (scriptedWorld (some (redirected "devices"), none)
        (some ⟨[], 500, devicesBody, false⟩, none) (jsonTable devicesBody devicesJSON))
        sampleConfig (str "k") (str "N_1")).result = .returned [] :=
  ⟨(non200_returns_empty
      (scriptedWorld (some (redirected "ssids"), none)
        (some ⟨[], 500, essidsBody, false⟩, none) (jsonTable essidsBody essidsJSON))
      sampleConfig (str "k") (str "N_1") (redirected "ssids") ⟨[], 500, essidsBody, false⟩
      (by decide)).1 rfl rfl rfl rfl,
    (non200_returns_empty
      (scriptedWorld (some (redirected "devices"), none)
        (some ⟨[], 500, devicesBody, false⟩, none) (jsonTable devicesBody devicesJSON))
      sampleConfig (str "k") (str "N_1") (redirected "devices") ⟨[], 500, devicesBody, false⟩
      (by decide)).2 rfl rfl rfl rfl⟩

theorem typeFields_ESSID :
    typeFields ESSID.decl = [⟨.Number, str "number", .int⟩, ⟨.Name, str "name", .string⟩] := by
  rfl

theorem findField_ESSID (key : GoString) (f : FieldDecl ESSIDField)
    (h : findField (typeFields ESSID.decl) key = some f) :
    f.field = .Number ∨ f.field = .Name := by
  have hmem : f ∈ typeFields ESSID.decl := by
    unfold findField at h
    split at h
    · rename_i g hg
      cases h
      exact List.mem_of_find?_eq_some hg
    · exact List.mem_of_find?_eq_some h
  rw [typeFields_ESSID] at hmem
  simp only [List.mem_cons, List.mem_singleton, List.not_mem_nil, or_false] at hmem
  rcases hmem with rfl | rfl
  · exact Or.inl rfl
  · exact Or.inr rfl

theorem ESSID_set_keeps (fld : ESSIDField) (h : fld = .Number ∨ fld = .Name) (v : GoValue)
    (e : ESSID) :
    (ESSID.set fld v e).Enabled = e.Enabled ∧ (ESSID.set fld v e).AuthMode = e.AuthMode := by
  rcases h with rfl | rfl <;> cases v <;> simp [ESSID.set]

theorem decodeObject_ESSID_keeps (w : World) (kvs : List (GoString × JSON)) : ∀ e : ESSID,
    (decodeObject w (typeFields ESSID.decl) ESSID.set kvs e).Enabled = e.Enabled ∧
    (decodeObject w (typeFields ESSID.decl) ESSID.set kvs e).AuthMode = e.AuthMode := by
  induction kvs with
  | nil => intro e; simp [decodeObject]
  | cons kv rest ih =>
    intro e
    obtain ⟨key, v⟩ := kv
    unfold decodeObject
    split
    · exact ih e
    · rename_i f hf
      split
      · exact ih e
      · rename_i gv _
        have hk := ESSID_set_keeps f.field (findField_ESSID key f hf) gv e
        have hr := ih (ESSID.set f.field gv e)
        exact ⟨hr.1.trans hk.1, hr.2.trans hk.2⟩

theorem decodeESSIDs_keeps (w : World) (body : GoString) :
    ∀ e ∈ decodeESSIDs w body, e.Enabled = false ∧ e.AuthMode = [] := by
  intro e he
  unfold decodeESSIDs Unmarshal at he
  split at he
  · rename_i xs _
    obtain ⟨j, _, rfl⟩ := List.mem_map.1 he
    cases j <;> first
      | exact ⟨rfl, rfl⟩
      | exact decodeObject_ESSID_keeps w _ ESSID.zero
  · simp at he

/-- C5. Whatever the body of a 200 answer, no record GetESSIDs returns has Enabled set or
AuthMode filled: both fields carry the tag `enabled`, so the decoder binds neither.  The
values the input gives for the enabled flag and the authentication mode are lost. -/
theorem GetESSIDs_loses_enabled_and_authMode (w : World) (config : Config)
    (APIKey networkID : GoString) (r1 r2 : Response)
    (hurl : w.urlParses (ssidsURL config networkID) = true)
    (h1 : w.Do 0 (apiRequest (ssidsURL config networkID) APIKey) = (some r1, none))
    (hurl2 : w.urlParses r1.RequestURL = true)
    (h2 : w.Do 1 (apiRequest r1.RequestURL APIKey) = (some r2, none))
    (h200 : r2.StatusCode = 200) :
    ∃ essids, (GetESSIDs w config APIKey networkID).result = .returned essids ∧
      ∀ e ∈ essids, e.Enabled = false ∧ e.AuthMode = [] := by
  refine ⟨decodeESSIDs w r2.Body, ?_, decodeESSIDs_keeps w r2.Body⟩
  rw [GetESSIDs_ok w config APIKey networkID r1 r2 hurl h1 hurl2 h2]
  simp [h200]

/-- C5, worked input: the two objects of `essidsBody` say `"enabled":true` and give an
`authMode`; the two records returned have the numbers and names, Enabled false and AuthMode
empty. -/
theorem GetESSIDs_loses_enabled_and_authMode_witness :
    (GetESSIDs (scriptedWorld (some (redirected "ssids"), none)
        (some ⟨[], 200, essidsBody, false⟩, none) (jsonTable essidsBody essidsJSON))
        sampleConfig (str "k") (str "N_1")).result =
      .returned [⟨0, str "corp", false, []⟩, ⟨1, str "guest", false, []⟩] ∧
    ∃ essids, (GetESSIDs (scriptedWorld (some (redirected "ssids"), none)
        (some ⟨[], 200, essidsBody, false⟩, none) (jsonTable essidsBody essidsJSON))
        sampleConfig (str "k") (str "N_1")).result = .returned essids ∧
      ∀ e ∈ essids, e.Enabled = false ∧ e.AuthMode = [] :=
  ⟨by decide,
    GetESSIDs_loses_enabled_and_authMode
      (scriptedWorld (some (redirected "ssids"), none)
        (some ⟨[], 200, essidsBody, false⟩, none) (jsonTable essidsBody essidsJSON))
      sampleConfig (str "k") (str "N_1") (redirected "ssids") ⟨[], 200, essidsBody, false⟩
      rfl rfl rfl rfl rfl⟩

/-- C9. When a request of GetESSIDs fails in transport, GetESSIDs returns the empty sequence:
after a failed first request that request is the only one sent, after a failed second
request the two requests are. -/
theorem GetESSIDs_transport_failure (w : World) (config : Config)
    (APIKey networkID : GoString)
    (hurl : w.urlParses (ssidsURL config networkID) = true) :
    (∀ e, (w.Do 0 (apiRequest (ssidsURL config networkID) APIKey)).2 = some e →
      GetESSIDs w config APIKey networkID =
        ⟨[apiRequest (ssidsURL config networkID) APIKey], .returned []⟩) ∧
    (∀ r1 e, w.Do 0 (apiRequest (ssidsURL config networkID) APIKey) = (some r1, none) →
      w.urlParses r1.RequestURL = true →
      (w.Do 1 (apiRequest r1.RequestURL APIKey)).2 = some e →
      GetESSIDs w config APIKey networkID =
        ⟨[apiRequest (ssidsURL config networkID) APIKey, apiRequest r1.RequestURL APIKey],
          .returned []⟩) := by
  unfold ssidsURL apiRequest at *
  constructor
  · intro e h1
    simp only [GetESSIDs, NewRequest, hurl, Request.HeaderAdd, List.nil_append, if_true]
    split
    · rfl
    · rename_i h; rw [h] at h1; cases h1
    · rename_i h; rw [h] at h1; cases h1
  · intro r1 e h1 hurl2 h2
    simp only [GetESSIDs, NewRequest, hurl, hurl2, Request.HeaderAdd, List.nil_append, if_true,
      h1]
    split
    · rfl
    · rename_i h; rw [h] at h2; cases h2
    · rename_i h; rw [h] at h2; cases h2

/-- C9, worked input: a refused connection on the first request, and on the second. -/
theorem GetESSIDs_transport_failure_witness :
    GetESSIDs (scriptedWorld (none, some (str "connection refused")) (none, none)
        (fun _ => none)) sampleConfig (str "k") (str "N_1") =
      ⟨[apiRequest (ssidsURL sampleConfig (str "N_1")) (str "k")], .returned []⟩ ∧
    GetESSIDs (scriptedWorld (some (redirected "ssids"), none)
        (none, some (str "connection refused")) (fun _ => none))
        sampleConfig (str "k") (str "N_1") =
      ⟨[apiRequest (ssidsURL sampleConfig (str "N_1")) (str "k"),
          apiRequest (redirected "ssids").RequestURL (str "k")], .returned []⟩ :=
  ⟨(GetESSIDs_transport_failure
      (scriptedWorld (none, some (str "connection refused")) (none, none) (fun _ => none))
      sampleConfig (str "k") (str "N_1") rfl).1 (str "connection refused") rfl,
    (GetESSIDs_transport_failure
      (scriptedWorld (some (redirected "ssids"), none)
        (none, some (str "connection refused")) (fun _ => none))
      sampleConfig (str "k") (str "N_1") rfl).2 (redirected "ssids")
      (str "connection refused") rfl rfl rfl⟩

/-- C10. When its first request succeeds, GetESSIDs sends exactly two requests: a GET to
`config.MerakiAPI + "/networks/" + networkID + "/ssids"` and a GET to the URL the first answer
was finally served from, each with the header `X-Cisco-Meraki-API-Key` set to the argument
APIKey and no body; GetAPs does the same with `/devices`.  Neither run depends on the
MerakiKey or NetworkID fields of the configuration. -/
theorem fetchers_send_two_requests (w : World) (config : Config)
    (APIKey networkID : GoString) (r1 : Response)
    (hurl2 : w.urlParses r1.RequestURL = true) :
    (w.urlParses (ssidsURL config networkID) = true →
      w.Do 0 (apiRequest (ssidsURL config networkID) APIKey) = (some r1, none) →
      (GetESSIDs w config APIKey networkID).sent =
        [⟨str "GET", config.MerakiAPI ++ str "/networks/" ++ networkID ++ str "/ssids",
            [(str "X-Cisco-Meraki-API-Key", APIKey)], none⟩,
          ⟨str "GET", r1.RequestURL, [(str "X-Cisco-Meraki-API-Key", APIKey)], none⟩]) ∧
    (w.urlParses (devicesURL config networkID) = true →
      w.Do 0 (apiRequest (devicesURL config networkID) APIKey) = (some r1, none) →
      (GetAPs w config APIKey networkID).sent =
        [⟨str "GET", config.MerakiAPI ++ str "/networks/" ++ networkID ++ str "/devices",
            [(str "X-Cisco-Meraki-API-Key", APIKey)], none⟩,
          ⟨str "GET", r1.RequestURL, [(str "X-Cisco-Meraki-API-Key", APIKey)], none⟩]) ∧
    (∀ key id : GoString,
      GetESSIDs w { config with MerakiKey := key, NetworkID := id } APIKey networkID =
        GetESSIDs w config APIKey networkID ∧
      GetAPs w { config with MerakiKey := key, NetworkID := id } APIKey networkID =
        GetAPs w config APIKey networkID) := by
  unfold ssidsURL devicesURL apiRequest apiKeyHeader at *
  refine ⟨?_, ?_, fun _ _ => ⟨rfl, rfl⟩⟩
  · intro hurl h1
    simp only [GetESSIDs, NewRequest, hurl, hurl2, Request.HeaderAdd, List.nil_append, if_true,
      h1, apiKeyHeader]
    split
    · rfl
    · rfl
    · split <;> rfl
  · intro hurl h1
    simp only [GetAPs, NewRequest, hurl, hurl2, Request.HeaderAdd, List.nil_append, if_true,
      h1, apiKeyHeader]
    split
    · rfl
    · rfl
    · split <;> rfl

/-- C10, worked input: the key `k` and network `N_1` are passed with a configuration that
holds another key and another network; the requests carry `k` and `N_1`. -/
theorem fetchers_send_two_requests_witness :
    (GetESSIDs (scriptedWorld (some (redirected "ssids"), none)
        (some ⟨[], 200, essidsBody, false⟩, none) (jsonTable essidsBody essidsJSON))
        sampleConfig (str "k") (str "N_1")).sent =
      [⟨str "GET", str "https://api.meraki.com/api/v0/networks/N_1/ssids",
          [(str "X-Cisco-Meraki-API-Key", str "k")], none⟩,
        ⟨str "GET", str "https://n7.meraki.com/api/v0/networks/N_1/ssids",
          [(str "X-Cisco-Meraki-API-Key", str "k")], none⟩] ∧
    (GetAPs (scriptedWorld (some (redirected "devices"), none)
        (some ⟨[], 200, devicesBody, false⟩, none) (jsonTable devicesBody devicesJSON))
        sampleConfig (str "k") (str "N_1")).sent =
      [⟨str "GET", str "https://api.meraki.com/api/v0/networks/N_1/devices",
          [(str "X-Cisco-Meraki-API-Key", str "k")], none⟩,
        ⟨str "GET", str "https://n7.meraki.com/api/v0/networks/N_1/devices",
          [(str "X-Cisco-Meraki-API-Key", str "k")], none⟩] :=
  ⟨((fetchers_send_two_requests
      (scriptedWorld (some (redirected "ssids"), none)
        (some ⟨[], 200, essidsBody, false⟩, none) (jsonTable essidsBody essidsJSON))
      sampleConfig (str "k") (str "N_1") (redirected "ssids") rfl).1 rfl rfl).trans (by decide),
    ((fetchers_send_two_requests
      (scriptedWorld (some (redirected "devices"), none)
        (some ⟨[], 200, devicesBody, false⟩, none) (jsonTable devicesBody devicesJSON))
      sampleConfig (str "k") (str "N_1") (redirected "devices") rfl).2.1 rfl rfl).trans
      (by decide)⟩

/-! ## Lemmas on the timestamp codec -/

theorem Digit.isDigitByte_byte (d : Digit) : isDigitByte d.byte = true := by
  have := d.isLt
  simp [isDigitByte, Digit.byte]
  omega

theorem Digit.byte_sub (d : Digit) : d.byte - 48 = d.val := by
  simp [Digit.byte]

theorem Digit.byte_bounds (d : Digit) : 48 ≤ d.byte ∧ d.byte ≤ 57 := by
  have := d.isLt
  simp [Digit.byte]
  omega

theorem getnum_twoDigits (a b : Digit) (rest : GoString) (fixed : Bool) :
    getnum (a.byte :: b.byte :: rest) fixed = some (twoDigits a b, rest) := by
  simp [getnum, Digit.isDigitByte_byte, Digit.byte_sub, twoDigits, Nat.mul_comm]

theorem digitsValue_map_byte (ds : List Digit) : ∀ acc : Nat,
    digitsValue (ds.map Digit.byte) acc = some (ds.foldl (fun a d => 10 * a + d.val) acc) := by
  induction ds with
  | nil => intro acc; rfl
  | cons d ds ih =>
    intro acc
    simp only [List.map_cons, digitsValue, Digit.byte_bounds d, and_self, if_true, ih,
      List.foldl_cons, Digit.byte_sub, Nat.mul_comm]

theorem takeWhile_digits (ds : List Digit) (z : GoString)
    (hz : ∀ c, z.head? = some c → isDigitByte c = false) :
    (ds.map Digit.byte ++ z).takeWhile isDigitByte = ds.map Digit.byte ∧
    (ds.map Digit.byte ++ z).dropWhile isDigitByte = z := by
  induction ds with
  | nil =>
    cases z with
    | nil => simp
    | cons c z => simp [List.takeWhile, List.dropWhile, hz c rfl]
  | cons d ds ih =>
    simp [List.takeWhile, List.dropWhile, Digit.isDigitByte_byte, ih.1, ih.2]

theorem stripQuotes_quoted (s : GoString) : stripQuotes ([34] ++ s ++ [34]) = .returned s := by
  have hlast : ([34] ++ s ++ [34]).getLast? = some 34 := by
    rw [List.getLast?_append]; rfl
  have hslice : slice ([34] ++ s ++ [34]) 1 (([34] ++ s ++ [34]).length - 1) = some s := by
    simp [slice]
  simp only [stripQuotes, hlast, hslice]
  simp

theorem parseFraction_render (ds : List Digit) (z : GoString) (hlen : ds.length ≤ 9)
    (hz : ∀ c, z.head? = some c → isDigitByte c = false ∧ c ≠ 46 ∧ c ≠ 44) (hne : z ≠ []) :
    parseFraction (RFC3339DateTime.renderSecfrac ds ++ z) =
      (ds.foldl (fun a d => 10 * a + d.val) 0 * 10 ^ (9 - ds.length), z) := by
  cases ds with
  | nil =>
    cases z with
    | nil => exact absurd rfl hne
    | cons c z =>
      have hc := hz c rfl
      cases z with
      | nil => simp [RFC3339DateTime.renderSecfrac, parseFraction]
      | cons c2 z => simp [RFC3339DateTime.renderSecfrac, parseFraction, hc.2.1, hc.2.2]
  | cons d ds =>
    have htw := takeWhile_digits (d :: ds) z (fun c h => (hz c h).1)
    simp only [List.map_cons, List.cons_append] at htw
    have hd := Digit.isDigitByte_byte d
    have hdv := digitsValue_map_byte (d :: ds) 0
    simp only [List.map_cons] at hdv
    have htake : (d.byte :: ds.map Digit.byte).take 9 = d.byte :: ds.map Digit.byte := by
      apply List.take_of_length_le
      simpa using hlen
    simp only [RFC3339DateTime.renderSecfrac, List.map_cons, List.cons_append, parseFraction, hd,
      htw.1, htw.2, htake, hdv, true_or, and_self, if_true, Option.getD_some]
    simp

theorem parseZone_render (off : RFC3339Offset) (hok : RFC3339DateTime.offsetOK off = true)
    (hZ : off ≠ .zulu true) :
    parseZone (RFC3339DateTime.renderOffset off) =
      some (match off with
        | .zulu _ => none
        | .numoffset _ _ _ _ _ => some (RFC3339DateTime.offsetSeconds off), []) := by
  cases off with
  | zulu lower =>
    cases lower with
    | true => exact absurd rfl hZ
    | false => rfl
  | numoffset negative h1 h0 m1 m0 =>
    simp only [RFC3339DateTime.offsetOK, decide_eq_true_eq] at hok
    have e1 := getnum_twoDigits h1 h0 [] true
    have e2 := getnum_twoDigits m1 m0 [] true
    cases negative <;>
      simp [RFC3339DateTime.renderOffset, parseZone, e1, e2, RFC3339DateTime.offsetSeconds] <;>
      omega

theorem parseDateFields_render (y3 y2 y1 y0 mo1 mo0 d1 d0 : Digit) (rest : GoString)
    (hmo : 1 ≤ twoDigits mo1 mo0 ∧ twoDigits mo1 mo0 ≤ 12) :
    parseDateFields (y3.byte :: y2.byte :: y1.byte :: y0.byte :: 45 :: mo1.byte :: mo0.byte
        :: 45 :: d1.byte :: d0.byte :: rest) =
      some (1000 * y3.val + 100 * y2.val + 10 * y1.val + y0.val, twoDigits mo1 mo0,
        twoDigits d1 d0, rest) := by
  have hy := digitsValue_map_byte [y3, y2, y1, y0] 0
  simp only [List.map_cons, List.map_nil, List.foldl_cons, List.foldl_nil] at hy
  have hs : slice (y3.byte :: y2.byte :: y1.byte :: y0.byte :: 45 :: mo1.byte :: mo0.byte
        :: 45 :: d1.byte :: d0.byte :: rest) 0 4 = some [y3.byte, y2.byte, y1.byte, y0.byte] := by
    simp [slice]
  have hm : ¬ (twoDigits mo1 mo0 = 0 ∨ 12 < twoDigits mo1 mo0) := by omega
  simp only [parseDateFields, hs, List.headD_cons, Digit.isDigitByte_byte, hy, List.drop_succ_cons,
    List.drop_zero, skipByte, if_true, getnum_twoDigits, hm, if_false]
  simp
  omega

theorem parseClockFields_render (h1 h0 mi1 mi0 s1 s0 : Digit) (rest : GoString)
    (hh : twoDigits h1 h0 ≤ 23) (hmi : twoDigits mi1 mi0 ≤ 59) (hs : twoDigits s1 s0 ≤ 59) :
    parseClockFields (h1.byte :: h0.byte :: 58 :: mi1.byte :: mi0.byte :: 58 :: s1.byte
        :: s0.byte :: rest) =
      some (twoDigits h1 h0, twoDigits mi1 mi0, twoDigits s1 s0, rest) := by
  have a : ¬ 24 ≤ twoDigits h1 h0 := by omega
  have b : ¬ 60 ≤ twoDigits mi1 mi0 := by omega
  have c : ¬ 60 ≤ twoDigits s1 s0 := by omega
  simp only [parseClockFields, getnum_twoDigits, skipByte, if_true, a, b, c, if_false]

theorem renderOffset_head (off : RFC3339Offset) (c : Nat)
    (h : (RFC3339DateTime.renderOffset off).head? = some c) :
    isDigitByte c = false ∧ c ≠ 46 ∧ c ≠ 44 := by
  cases off with
  | zulu lower =>
    cases lower <;> simp [RFC3339DateTime.renderOffset] at h <;> subst h <;> decide
  | numoffset negative h1 h0 m1 m0 =>
    cases negative <;> simp [RFC3339DateTime.renderOffset] at h <;> subst h <;> decide

theorem renderOffset_ne_nil (off : RFC3339Offset) : RFC3339DateTime.renderOffset off ≠ [] := by
  cases off <;> simp [RFC3339DateTime.renderOffset]

theorem timeParseRFC3339_render (f : RFC3339DateTime)
    (hwf : f.wellFormed = true) (hsec : f.second ≤ 59) (hT : f.lowerT = false)
    (hZ : f.offset ≠ .zulu true) (hfrac : f.secfrac.length ≤ 9) :
    ∃ t, timeParseRFC3339 f.render = some t ∧ t.sec = f.unixSec ∧ t.nsec = f.nanos := by
  obtain ⟨y3, y2, y1, y0, mo1, mo0, d1, d0, lowerT, h1, h0, mi1, mi0, s1, s0, secfrac, offset⟩ := f
  simp only [RFC3339DateTime.wellFormed, RFC3339DateTime.month, RFC3339DateTime.day,
    RFC3339DateTime.year, RFC3339DateTime.hour, RFC3339DateTime.minute, RFC3339DateTime.second,
    decide_eq_true_eq, Bool.decide_and, Bool.and_eq_true, Bool.decide_eq_true] at hwf hsec
  simp only at hT hZ hfrac
  subst hT
  obtain ⟨hm1, hm2, hd1, hd2, hh, hmi, _, hoff⟩ := hwf
  have hdate := parseDateFields_render y3 y2 y1 y0 mo1 mo0 d1 d0
    (84 :: h1.byte :: h0.byte :: 58 :: mi1.byte :: mi0.byte :: 58 :: s1.byte :: s0.byte ::
      (RFC3339DateTime.renderSecfrac secfrac ++ RFC3339DateTime.renderOffset offset)) ⟨hm1, hm2⟩
  have hclock := parseClockFields_render h1 h0 mi1 mi0 s1 s0
    (RFC3339DateTime.renderSecfrac secfrac ++ RFC3339DateTime.renderOffset offset) hh hmi hsec
  have hfr := parseFraction_render secfrac (RFC3339DateTime.renderOffset offset) hfrac
    (renderOffset_head offset) (renderOffset_ne_nil offset)
  have hzone := parseZone_render offset hoff hZ
  have hday : ¬ (twoDigits d1 d0 < 1 ∨
      daysIn (twoDigits mo1 mo0)
        ((1000 * y3.val + 100 * y2.val + 10 * y1.val + y0.val : Nat) : Int) < twoDigits d1 d0) := by
    omega
  simp only [RFC3339DateTime.render, List.cons_append, List.nil_append, Bool.false_eq_true,
    if_false, List.append_assoc, timeParseRFC3339, hdate, skipByte, if_true, hclock, hfr, hzone,
    ne_eq, not_true_eq_false, hday]
  cases offset with
  | zulu lower =>
    exact ⟨_, rfl, by simp [RFC3339DateTime.unixSec, RFC3339DateTime.offsetSeconds,
      RFC3339DateTime.year, RFC3339DateTime.month, RFC3339DateTime.day, RFC3339DateTime.hour,
      RFC3339DateTime.minute, RFC3339DateTime.second], rfl⟩
  | numoffset negative a b c d =>
    exact ⟨_, rfl, rfl, rfl⟩

theorem render_length (f : RFC3339DateTime) : 20 ≤ f.render.length := by
  have h : 1 ≤ (RFC3339DateTime.renderOffset f.offset).length := by
    cases f.offset <;> simp [RFC3339DateTime.renderOffset]
  simp only [RFC3339DateTime.render, List.length_append, List.length_cons, List.length_nil]
  omega

theorem stripQuotes_returns (b : GoString) (hb : b ≠ []) (hq : b ≠ [34]) :
    ∃ text, stripQuotes b = .returned text := by
  cases b with
  | nil => exact absurd rfl hb
  | cons c rest =>
    simp only [stripQuotes, List.head?_cons]
    split
    · rename_i h
      have hrest : rest ≠ [] := by
        intro hr
        subst hr
        exact hq (by rw [h.1])
      have hlen : 1 ≤ rest.length := List.length_pos.2 hrest
      have hs : slice (c :: rest) 1 ((c :: rest).length - 1) =
          some (((c :: rest).drop 1).take ((c :: rest).length - 1 - 1)) := by
        simp only [slice, List.length_cons]
        rw [if_pos]
        omega
      rw [hs]
      exact ⟨_, rfl⟩
    · exact ⟨_, rfl⟩

theorem UnmarshalJSON_lone_quote_panics (ct : Timestamp) :
    Timestamp.UnmarshalJSON ct [34] = .panicked .sliceBounds := by
  rfl

theorem UnmarshalJSON_empty_panics (ct : Timestamp) :
    Timestamp.UnmarshalJSON ct [] = .panicked .indexOutOfRange := by
  rfl

theorem UnmarshalJSON_lower_case_rejected :
    Timestamp.UnmarshalJSON ⟨Time.zero⟩ (str "\"2020-01-01t00:00:00Z\"") =
      .returned (⟨fallbackTime⟩, none) ∧
    Timestamp.UnmarshalJSON ⟨Time.zero⟩ (str "\"2020-01-01T00:00:00z\"") =
      .returned (⟨fallbackTime⟩, none) := by
  exact ⟨by rfl, by rfl⟩

/-! ## The timestamp codec: claims -/

/-- C6. Encoding the instant 2020-01-01T00:00:00Z where America/Mexico_City is six hours behind
UTC writes the Mexican wall clock followed by a literal `Z`, `"2019-12-31T18:00:00.000Z"`, and
decoding that text yields 2019-12-31T18:00:00 UTC: an instant six hours before the one
encoded. -/
theorem MarshalJSON_UnmarshalJSON_shifts_instant (w : World) (loc : Location)
    (hloc : w.LoadLocation (str "America/Mexico_City") = some loc)
    (hoff : loc.lookup 1577836800 = -21600) :
    Timestamp.MarshalJSON w ⟨⟨1577836800, 0, UTC⟩⟩ =
      .returned (str "\"2019-12-31T18:00:00.000Z\"", none) ∧
    ∃ t, Timestamp.UnmarshalJSON ⟨Time.zero⟩ (str "\"2019-12-31T18:00:00.000Z\"") =
        .returned (⟨t⟩, none) ∧
      t.sec = 1577836800 - 21600 ∧ ¬ t.Equal ⟨1577836800, 0, UTC⟩ := by
  constructor
  · simp only [Timestamp.MarshalJSON, hloc, Time.In, Time.Format, hoff]
    rfl
  · refine ⟨⟨1577815200, 0, UTC⟩, by rfl, by decide, ?_⟩
    simp [Time.Equal]

/-- C6, worked input: the zone database `zoneWorld`. -/
theorem MarshalJSON_UnmarshalJSON_shifts_instant_witness :
    Timestamp.MarshalJSON zoneWorld ⟨⟨1577836800, 0, UTC⟩⟩ =
      .returned (str "\"2019-12-31T18:00:00.000Z\"", none) ∧
    ∃ t, Timestamp.UnmarshalJSON ⟨Time.zero⟩ (str "\"2019-12-31T18:00:00.000Z\"") =
        .returned (⟨t⟩, none) ∧
      t.sec = 1577836800 - 21600 ∧ ¬ t.Equal ⟨1577836800, 0, UTC⟩ :=
  MarshalJSON_UnmarshalJSON_shifts_instant zoneWorld
    ⟨str "America/Mexico_City", fun _ => -21600⟩ rfl rfl

/-- C7, as stated, fails: `1990-12-31T23:59:60Z` is a well-formed RFC 3339 date-time, the
decoder's parse rejects its seconds field, and Time is set to the fallback time of 2006, not
to the instant the text denotes. -/
theorem UnmarshalJSON_leap_second_counterexample :
    leapSecond1990.wellFormed = true ∧
    leapSecond1990.render = str "1990-12-31T23:59:60Z" ∧
    Timestamp.UnmarshalJSON ⟨Time.zero⟩ (str "\"1990-12-31T23:59:60Z\"") =
      .returned (⟨fallbackTime⟩, none) ∧
    ¬ fallbackTime.Equal leapSecond1990.instant := by
  refine ⟨by decide, by decide, by rfl, ?_⟩
  intro h
  have h1 : fallbackTime.sec = leapSecond1990.instant.sec := h.1
  revert h1
  decide

/-- C7, amended. For every well-formed RFC 3339 date-time written with an upper-case `T` and,
if it is in UTC, an upper-case `Z`, with a seconds field of at most 59 and at most nine
fractional digits, UnmarshalJSON applied to the text in double quotes returns no error and
sets Time to the instant the text denotes. -/
theorem UnmarshalJSON_decodes_RFC3339 (ct : Timestamp) (f : RFC3339DateTime)
    (hwf : f.wellFormed = true) (hsec : f.second ≤ 59) (hT : f.lowerT = false)
    (hZ : f.offset ≠ .zulu true) (hfrac : f.secfrac.length ≤ 9) :
    ∃ t, Timestamp.UnmarshalJSON ct ([34] ++ f.render ++ [34]) = .returned (⟨t⟩, none) ∧
      t.Equal f.instant := by
  obtain ⟨t, ht, hs, hn⟩ := timeParseRFC3339_render f hwf hsec hT hZ hfrac
  refine ⟨t, ?_, hs, hn⟩
  simp only [Timestamp.UnmarshalJSON, stripQuotes_quoted, ht]

/-- C7, worked inputs: `"2020-01-01T00:00:00Z"` decodes to midnight UTC of 1 January 2020,
which is 1577836800 seconds after the epoch, and `"1996-12-19T16:39:57.25-08:00"` to
1996-12-20T00:39:57.25 UTC. -/
theorem UnmarshalJSON_decodes_RFC3339_witness :
    ([34] ++ newYear2020.render ++ [34] = str "\"2020-01-01T00:00:00Z\"" ∧
      newYear2020.instant.sec = unixDate 2020 1 1 0 0 0 ∧
      newYear2020.instant.sec = 1577836800 ∧ newYear2020.instant.nsec = 0 ∧
      ∃ t, Timestamp.UnmarshalJSON ⟨Time.zero⟩ ([34] ++ newYear2020.render ++ [34]) =
          .returned (⟨t⟩, none) ∧ t.Equal newYear2020.instant) ∧
    ([34] ++ pacific1996.render ++ [34] = str "\"1996-12-19T16:39:57.25-08:00\"" ∧
      pacific1996.instant.sec = unixDate 1996 12 20 0 39 57 ∧
      pacific1996.instant.nsec = 250000000 ∧
      ∃ t, Timestamp.UnmarshalJSON ⟨Time.zero⟩ ([34] ++ pacific1996.render ++ [34]) =
          .returned (⟨t⟩, none) ∧ t.Equal pacific1996.instant) :=
  ⟨⟨by decide, by decide, by decide, by decide,
      UnmarshalJSON_decodes_RFC3339 ⟨Time.zero⟩ newYear2020 (by decide) (by decide) rfl
        (by decide) (by decide)⟩,
    ⟨by decide, by decide, by decide,
      UnmarshalJSON_decodes_RFC3339 ⟨Time.zero⟩ pacific1996 (by decide) (by decide) rfl
        (by decide) (by decide)⟩⟩

/-- C8, as stated, fails: neither `2000-01-01T1:12:34Z`, whose hour has one digit, nor `x` is
a well-formed RFC 3339 date-time, yet the first decodes to 2000-01-01T01:12:34 UTC and the
second to the fallback time: inputs that are not valid RFC 3339 do not all get one time. -/
theorem UnmarshalJSON_lenient_hour_counterexample :
    ¬ IsRFC3339 (str "2000-01-01T1:12:34Z") ∧ ¬ IsRFC3339 (str "x") ∧
    Timestamp.UnmarshalJSON ⟨Time.zero⟩ (str "\"2000-01-01T1:12:34Z\"") =
      .returned (⟨⟨unixDate 2000 1 1 1 12 34, 0, UTC⟩⟩, none) ∧
    Timestamp.UnmarshalJSON ⟨Time.zero⟩ (str "x") = .returned (⟨fallbackTime⟩, none) ∧
    ¬ Time.Equal ⟨unixDate 2000 1 1 1 12 34, 0, UTC⟩ fallbackTime := by
  refine ⟨?_, ?_, by rfl, by rfl, ?_⟩
  · rintro ⟨f, _, h⟩
    have h1 := congrArg List.length h
    have h2 := render_length f
    have h3 : (str "2000-01-01T1:12:34Z").length = 19 := by decide
    omega
  · rintro ⟨f, _, h⟩
    have h1 := congrArg List.length h
    have h2 := render_length f
    have h3 : (str "x").length = 1 := by decide
    omega
  · intro h
    have h1 : unixDate 2000 1 1 1 12 34 = fallbackTime.sec := h.1
    revert h1
    decide

/-- C8, amended. For every non-empty input other than a lone quote whose quote-stripped text
`time.Parse` rejects, UnmarshalJSON returns a nil error and sets Time to 2006-01-02T15:04:05
UTC, the same for every such input. -/
theorem UnmarshalJSON_parse_failure_default (ct : Timestamp) (b : GoString)
    (hb : b ≠ []) (hq : b ≠ [34])
    (hfail : ∀ text, stripQuotes b = .returned text → timeParseRFC3339 text = none) :
    Timestamp.UnmarshalJSON ct b = .returned (⟨fallbackTime⟩, none) := by
  obtain ⟨text, ht⟩ := stripQuotes_returns b hb hq
  have hl : timeParseRFC3339 tsLayout = some fallbackTime := by rfl
  simp only [Timestamp.UnmarshalJSON, ht, hfail text ht, hl]

/-- C8, worked input: the text `"yesterday"`; the fallback time is 2 January 2006, 15:04:05
UTC. -/
theorem UnmarshalJSON_parse_failure_default_witness :
    fallbackTime.sec = unixDate 2006 1 2 15 4 5 ∧
    Timestamp.UnmarshalJSON ⟨Time.zero⟩ (str "\"yesterday\"") =
      .returned (⟨fallbackTime⟩, none) :=
  ⟨by decide,
    UnmarshalJSON_parse_failure_default ⟨Time.zero⟩ (str "\"yesterday\"") (by decide)
      (by decide)
      (fun text h => by
        have e : stripQuotes (str "\"yesterday\"") = .returned (str "yesterday") := by decide
        rw [e] at h
        cases h
        rfl)⟩

end Meraki
